import Mathlib

/-!
Verification of the portfolio health/authorization pipeline of the
"Executive Flash News" Jira widget.

The development shallowly embeds the two source files that carry the
pipeline:

* `src/domain/entities/ExecutivePortfolio.js` — health scoring,
  critical-alert detection and the portfolio summary;
* the `AuthorizationService` class — portfolio access authorization and
  permission-based data filtering.

JavaScript numbers are modelled as `Nat` (issue counts, which the data
model constrains to non-negative integers) and `Int` (scores, which the
formula can drive below an intermediate zero).  `Math.round(a / b)`,
which JavaScript evaluates in binary floating point, is modelled as
exact rational division followed by round-half-up (`⌊x + 1/2⌋`); the two
agree for every portfolio whose total score and length fit well below
2^50, which covers every realisable input.  Absent object fields
(`delete obj.field`, a missing `budget`, the `{ projects: [] }` fallback
object) are modelled with `Option`.  Fallible calls into the Forge user
adapter (`getUserPermissions`, which may throw) are modelled by passing
the outcome of the call as an `Except` value.
-/

namespace ExecFlashNews

/-- One project record as assembled by the portfolio service: identifying
metadata, the business unit used for access scoping, the three issue
counts read by the health formula, and the sensitive fields that the
authorization filter may delete (`Option` models field absence; the
values of `budget`/`revenue`/`detailedMetrics` are opaque to the
pipeline, only their presence matters). -/
structure Project where
  key : String
  name : String
  businessUnit : String
  overdueIssues : Nat
  blockedIssues : Nat
  highPriorityIssues : Nat
  budget : Option Int := none
  revenue : Option Int := none
  detailedMetrics : Option String := none
deriving Repr, DecidableEq

/-- One permission grant from the Forge identity provider: a `type` tag
(such as "PORTFOLIO_VIEW", "FINANCIAL_DATA", "DETAILED_METRICS") and a
`scope` list of business-unit names, possibly holding the sentinel
"All_Units". -/
structure Permission where
  type : String
  scope : List String
deriving Repr, DecidableEq

/-! ### ExecutivePortfolio (src/domain/entities/ExecutivePortfolio.js)

The entity methods close over `this.projects`; here each method takes
the project list explicitly. -/

/-- Embeds `ExecutivePortfolio._calculateProjectHealth`: start from 100,
deduct `min(30, overdueIssues * 5)` when there are overdue issues,
`min(20, blockedIssues * 3)` when there are blocked issues and
`min(25, highPriorityIssues * 2)` when there are high-priority issues,
then clamp to a minimum of 0 (`Math.max(0, score)`). -/
def calculateProjectHealth (project : Project) : Int :=
  let score : Int := 100
  let score := if project.overdueIssues > 0 then
    score - min 30 ((project.overdueIssues : Int) * 5) else score
  let score := if project.blockedIssues > 0 then
    score - min 20 ((project.blockedIssues : Int) * 3) else score
  let score := if project.highPriorityIssues > 0 then
    score - min 25 ((project.highPriorityIssues : Int) * 2) else score
  max 0 score

/-- Embeds `ExecutivePortfolio._isProjectCritical`: health below 50, or
more than 5 overdue issues, or more than 3 blocked issues. -/
def isProjectCritical (project : Project) : Bool :=
  decide (calculateProjectHealth project < 50) ||
  decide (project.overdueIssues > 5) ||
  decide (project.blockedIssues > 3)

/-- Embeds `ExecutivePortfolio._getCriticalReason`: the first matching
branch of the if-chain wins. -/
def getCriticalReason (project : Project) : String :=
  if project.overdueIssues > 5 then
    toString project.overdueIssues ++ " overdue issues"
  else if project.blockedIssues > 3 then
    toString project.blockedIssues ++ " blocked issues"
  else if calculateProjectHealth project < 50 then
    "Overall health below 50%"
  else
    "Multiple risk factors"

/-- One critical alert record as built by `getCriticalAlerts`. -/
structure CriticalAlert where
  projectKey : String
  projectName : String
  alertLevel : String
  reason : String
deriving Repr, DecidableEq

/-- Embeds `ExecutivePortfolio.getCriticalAlerts`: filter the critical
projects, in input order, and map each to an alert record. -/
def getCriticalAlerts (projects : List Project) : List CriticalAlert :=
  (projects.filter (fun project => isProjectCritical project)).map
    (fun project =>
      { projectKey := project.key
        projectName := project.name
        alertLevel := "CRITICAL"
        reason := getCriticalReason project })

/-- Embeds the `reduce` in `ExecutivePortfolio.calculateHealthScore`:
the sum of the per-project health scores. -/
def totalHealthScore (projects : List Project) : Int :=
  projects.foldl (fun sum project => sum + calculateProjectHealth project) 0

/-- Models `Math.round(t / l)` for an integer total `t` and a positive
integer length `l`: the `Math.round` of JavaScript is round-half-up,
`⌊t/l + 1/2⌋`, which over the integers is `(2*t + l) / (2*l)` with
floor division (the `Int` division of Lean is Euclidean, which agrees with
floor division for the positive divisor `2*l`). -/
def jsRound (t : Int) (l : Nat) : Int :=
  (2 * t + l) / (2 * (l : Int))

/-- Embeds `ExecutivePortfolio.calculateHealthScore`: 0 for an empty
project list, otherwise the rounded mean of the per-project scores. -/
def calculateHealthScore (projects : List Project) : Int :=
  if projects.length = 0 then 0
  else jsRound (totalHealthScore projects) projects.length

/-- The record returned by `ExecutivePortfolio.getPortfolioSummary`
(note that its `criticalAlerts` field is the number of alerts, not the
list). -/
structure PortfolioSummary where
  totalProjects : Nat
  healthScore : Int
  criticalAlerts : Nat
  onTrackProjects : Nat
  atRiskProjects : Nat
deriving Repr, DecidableEq

/-- Embeds `ExecutivePortfolio.getPortfolioSummary`. -/
def getPortfolioSummary (projects : List Project) : PortfolioSummary :=
  { totalProjects := projects.length
    healthScore := calculateHealthScore projects
    criticalAlerts := (getCriticalAlerts projects).length
    onTrackProjects :=
      (projects.filter (fun p => decide (calculateProjectHealth p ≥ 70))).length
    atRiskProjects :=
      (projects.filter (fun p => decide (calculateProjectHealth p < 70))).length }

/-- The reference health-score formula as the spec states it:
`max(0, 100 - min(30, o*5) - min(20, b*3) - min(25, h*2))`, written
without the `if count > 0` guards of the code. -/
def healthScoreRef (o b h : Nat) : Int :=
  max 0 (100 - min 30 ((o : Int) * 5) - min 20 ((b : Int) * 3)
    - min 25 ((h : Int) * 2))

/-- The value `_calculateProjectHealth` computes before the final
`Math.max(0, score)` clamp. -/
def calculateProjectHealthNoClamp (project : Project) : Int :=
  let score : Int := 100
  let score := if project.overdueIssues > 0 then
    score - min 30 ((project.overdueIssues : Int) * 5) else score
  let score := if project.blockedIssues > 0 then
    score - min 20 ((project.blockedIssues : Int) * 3) else score
  if project.highPriorityIssues > 0 then
    score - min 25 ((project.highPriorityIssues : Int) * 2) else score

/-! ### AuthorizationService

The service methods take the permissions of the caller from the Forge
user adapter, whose `getUserPermissions` call may throw; the outcome
is passed in as an `Except` value (`Except.error` models a thrown
exception reaching the catch block). -/

/-- Models JavaScript truthiness of the `authToken` argument: `none` is
a missing/null token, `some ""` is an empty string, both falsy. -/
def jsTruthy : Option String → Bool
  | none => false
  | some s => !(s == "")

/-- Embeds `AuthorizationService._isValidExecutiveUserId`: the caller
identifier must be a string (a `none` argument models a non-string
value, which fails the `typeof` check) starting with "exec-";
the `startsWith` test on the string "exec-" is expressed over the
character list of the user id. -/
def isValidExecutiveUserId : Option String → Bool
  | none => false
  | some userId => "exec-".data.isPrefixOf userId.data

/-- Embeds `AuthorizationService._hasPermissionType`:
`permissions.some(p => p.type === permissionType)`. -/
def hasPermissionType (permissions : List Permission)
    (permissionType : String) : Bool :=
  permissions.any (fun permission => permission.type == permissionType)

/-- Embeds `AuthorizationService._hasBusinessUnitAccess`: some
permission of the given type has the business unit, or the sentinel
"All_Units", in its scope. -/
def hasBusinessUnitAccess (permissions : List Permission)
    (permissionType : String) (businessUnit : String) : Bool :=
  let relevantPermissions :=
    permissions.filter (fun p => p.type == permissionType)
  relevantPermissions.any (fun permission =>
    permission.scope.contains businessUnit ||
    permission.scope.contains "All_Units")

/-- Embeds `AuthorizationService.authorizePortfolioAccess`.  The guards
run in source order: token truthiness, executive-id format, then the
permission fetch (whose thrown exception the catch block turns into
`false`), then the PORTFOLIO_VIEW and business-unit checks.  Every
branch returns a boolean; the method never propagates an exception. -/
def authorizePortfolioAccess (executiveUserId : Option String)
    (businessUnit : String) (authToken : Option String)
    (permResult : Except String (List Permission)) : Bool :=
  if !(jsTruthy authToken) then false
  else if !(isValidExecutiveUserId executiveUserId) then false
  else match permResult with
    | .error _ => false
    | .ok userPermissions =>
      if !(hasPermissionType userPermissions "PORTFOLIO_VIEW") then false
      else if !(hasBusinessUnitAccess userPermissions "PORTFOLIO_VIEW"
          businessUnit) then false
      else true

/-- Embeds the `reduce` in
`AuthorizationService._filterProjectsByBusinessUnit`: the concatenation
of the scopes of all PORTFOLIO_VIEW permissions. -/
def authorizedUnits (permissions : List Permission) : List String :=
  (permissions.filter (fun p => p.type == "PORTFOLIO_VIEW")).foldl
    (fun units permission => units ++ permission.scope) []

/-- Embeds `AuthorizationService._filterProjectsByBusinessUnit`: with no
PORTFOLIO_VIEW permission the result is empty; otherwise a project is
kept when the concatenated authorized units contain its business unit or
the sentinel "All_Units". -/
def filterProjectsByBusinessUnit (projects : List Project)
    (permissions : List Permission) : List Project :=
  let portfolioPermissions :=
    permissions.filter (fun p => p.type == "PORTFOLIO_VIEW")
  if portfolioPermissions.length = 0 then []
  else
    let authorized := authorizedUnits permissions
    projects.filter (fun project =>
      authorized.contains project.businessUnit ||
      authorized.contains "All_Units")

/-- Embeds the per-project body of
`AuthorizationService._filterSensitiveProjectData`: spread-copy the
project, delete `budget`/`revenue` without financial access, delete
`detailedMetrics` without detailed-metrics access. -/
def redactProject (hasFinancialAccess hasDetailedAccess : Bool)
    (project : Project) : Project :=
  let filteredProject :=
    if hasFinancialAccess then project
    else { project with budget := none, revenue := none }
  if hasDetailedAccess then filteredProject
  else { filteredProject with detailedMetrics := none }

/-- Embeds `AuthorizationService._filterSensitiveProjectData`. -/
def filterSensitiveProjectData (projects : List Project)
    (permissions : List Permission) : List Project :=
  let hasFinancialAccess := hasPermissionType permissions "FINANCIAL_DATA"
  let hasDetailedAccess := hasPermissionType permissions "DETAILED_METRICS"
  projects.map (redactProject hasFinancialAccess hasDetailedAccess)

/-- The portfolio-level financial block
(`{ totalBudget, totalRevenue }`). -/
structure FinancialData where
  totalBudget : Int
  totalRevenue : Int
deriving Repr, DecidableEq

/-- The portfolio data object passed to
`filterPortfolioDataByPermissions`.  Fields other than `projects` are
optional: the fail-closed fallback `{ projects: [] }` carries none of
them, and the filter may delete `financialData`.  The summary and alert
blocks and the timestamp are opaque to the filter, so they are folded
into `rest`, an optional opaque blob standing for
`portfolio`/`criticalAlerts`/`detailedMetrics`/`lastUpdated`. -/
structure PortfolioData where
  projects : List Project
  financialData : Option FinancialData := none
  rest : Option String := none
deriving Repr, DecidableEq

/-- Embeds `AuthorizationService.filterPortfolioDataByPermissions` in
explicit state-passing form.  The JavaScript method first deep-clones
its argument (`JSON.parse(JSON.stringify(portfolioData))`) and mutates
only the clone, so the object of the caller is unchanged when the call
returns; the embedding makes that visible by returning the pair
(result, the object of the caller after the call), the second being
the input value.  An `Except.error` permission fetch lands in the catch
block, which returns the bare `{ projects: [] }` object. -/
def filterPortfolioDataByPermissions
    (permResult : Except String (List Permission))
    (portfolioData : PortfolioData) : PortfolioData × PortfolioData :=
  match permResult with
  | .error _ => ({ projects := [] }, portfolioData)
  | .ok userPermissions =>
    let filteredData := portfolioData
    let filteredData := { filteredData with
      projects := filterProjectsByBusinessUnit filteredData.projects
        userPermissions }
    let filteredData := { filteredData with
      projects := filterSensitiveProjectData filteredData.projects
        userPermissions }
    let filteredData :=
      if hasPermissionType userPermissions "FINANCIAL_DATA" then filteredData
      else { filteredData with financialData := none }
    (filteredData, portfolioData)


/-! ### Sample data

Concrete values used by the witness theorems below, shaped like the
records the portfolio service assembles. -/

/-- A healthy Sales project carrying every sensitive field. -/
def sampleSalesProject : Project :=
  { key := "SALES-1", name := "Sales Alpha", businessUnit := "Sales",
    overdueIssues := 0, blockedIssues := 0, highPriorityIssues := 0,
    budget := some 1000000, revenue := some 500000,
    detailedMetrics := some "velocity 85" }

/-- An Engineering project outside the Sales scope. -/
def sampleEngProject : Project :=
  { key := "ENG-1", name := "Engineering Beta", businessUnit := "Engineering",
    overdueIssues := 2, blockedIssues := 1, highPriorityIssues := 3 }

/-- A project whose only risk trigger is its overdue-issue volume. -/
def sampleOverdueProject : Project :=
  { key := "OPS-1", name := "Ops Gamma", businessUnit := "Operations",
    overdueIssues := 7, blockedIssues := 0, highPriorityIssues := 0 }

/-- A project firing every critical trigger at once. -/
def sampleMultiRiskProject : Project :=
  { key := "OPS-2", name := "Ops Delta", businessUnit := "Operations",
    overdueIssues := 7, blockedIssues := 9, highPriorityIssues := 20 }

/-- A permission list granting only PORTFOLIO_VIEW on Sales. -/
def sampleViewPerms : List Permission :=
  [{ type := "PORTFOLIO_VIEW", scope := ["Sales"] }]

/-- A raw portfolio data object before filtering. -/
def samplePortfolioData : PortfolioData :=
  { projects := [sampleSalesProject, sampleEngProject],
    financialData := some { totalBudget := 5000000, totalRevenue := 8000000 },
    rest := some "portfolio summary" }

/-! ### Helper lemmas -/

/-- Membership in the concatenated PORTFOLIO_VIEW scopes is membership
in the scope of some PORTFOLIO_VIEW permission. -/
theorem mem_authorizedUnits (permissions : List Permission) (x : String) :
    x ∈ authorizedUnits permissions ↔
      ∃ perm ∈ permissions, perm.type = "PORTFOLIO_VIEW" ∧ x ∈ perm.scope := by
  have key : ∀ (l : List Permission) (acc : List String),
      (x ∈ l.foldl (fun units p => units ++ p.scope) acc ↔
        x ∈ acc ∨ ∃ perm ∈ l, x ∈ perm.scope) := by
    intro l
    induction l with
    | nil => simp
    | cons p ps ih =>
      intro acc
      simp only [List.foldl_cons, ih, List.mem_append, List.mem_cons]
      constructor
      · rintro (⟨h | h⟩ | ⟨perm, hm, hx⟩)
        · exact Or.inl h
        · exact Or.inr ⟨p, Or.inl rfl, h⟩
        · exact Or.inr ⟨perm, Or.inr hm, hx⟩
      · rintro (h | ⟨perm, hm | hm, hx⟩)
        · exact Or.inl (Or.inl h)
        · subst hm; exact Or.inl (Or.inr hx)
        · exact Or.inr ⟨perm, hm, hx⟩
  rw [authorizedUnits, key]
  simp only [List.not_mem_nil, false_or, List.mem_filter, beq_iff_eq]
  constructor
  · rintro ⟨perm, ⟨hm, ht⟩, hx⟩
    exact ⟨perm, hm, ht, hx⟩
  · rintro ⟨perm, hm, ht, hx⟩
    exact ⟨perm, ⟨hm, ht⟩, hx⟩

/-- The project list produced by a successful filtering call is the
business-unit filter followed by the sensitive-field redaction. -/
theorem filterPortfolioData_projects (perms : List Permission)
    (pd : PortfolioData) :
    (filterPortfolioDataByPermissions (.ok perms) pd).1.projects =
      filterSensitiveProjectData
        (filterProjectsByBusinessUnit pd.projects perms) perms := by
  simp only [filterPortfolioDataByPermissions]
  split_ifs <;> rfl

/-- Characterisation of the business-unit filter: a project survives
exactly when it was in the input and its business unit, or the sentinel
"All_Units", is among the authorized units. -/
theorem mem_filterProjectsByBusinessUnit (projects : List Project)
    (perms : List Permission) (r : Project) :
    r ∈ filterProjectsByBusinessUnit projects perms ↔
      r ∈ projects ∧
      (r.businessUnit ∈ authorizedUnits perms ∨
        "All_Units" ∈ authorizedUnits perms) := by
  rw [filterProjectsByBusinessUnit]
  split_ifs with h
  · rw [List.length_eq_zero] at h
    have hau : authorizedUnits perms = [] := by
      rw [authorizedUnits, h]
      rfl
    simp [hau]
  · simp [List.mem_filter]

/-- Redaction never touches the non-sensitive fields. -/
theorem redactProject_preserves (fin det : Bool) (p : Project) :
    (redactProject fin det p).key = p.key ∧
    (redactProject fin det p).name = p.name ∧
    (redactProject fin det p).businessUnit = p.businessUnit ∧
    (redactProject fin det p).overdueIssues = p.overdueIssues ∧
    (redactProject fin det p).blockedIssues = p.blockedIssues ∧
    (redactProject fin det p).highPriorityIssues = p.highPriorityIssues := by
  simp only [redactProject]
  split_ifs <;> simp

/-- The foldl accumulating the total health score is the sum of the
mapped per-project scores. -/
theorem totalHealthScore_eq_sum (projects : List Project) :
    totalHealthScore projects = (projects.map calculateProjectHealth).sum := by
  have key : ∀ (l : List Project) (a : Int),
      l.foldl (fun s q => s + calculateProjectHealth q) a =
        a + (l.map calculateProjectHealth).sum := by
    intro l
    induction l with
    | nil => simp
    | cons x xs ih => intro a; simp [ih, add_assoc]
  simpa [totalHealthScore] using key projects 0

/-- The integer computation `(2*t + l) / (2*l)` is the round-half-up of
the exact rational quotient `t / l`. -/
theorem jsRound_eq_round (t : Int) (l : Nat) (hl : 0 < l) :
    jsRound t l = round ((t : ℚ) / (l : ℚ)) := by
  have hl2 : ((l : ℚ)) ≠ 0 := Nat.cast_ne_zero.mpr hl.ne'
  rw [round_eq, jsRound]
  have key : (t : ℚ) / l + 1/2 =
      (((2 * t + (l : ℤ)) : ℤ) : ℚ) / (((2 * l : ℕ)) : ℚ) := by
    push_cast
    field_simp
    ring
  rw [key, Rat.floor_intCast_div_natCast]
  push_cast
  ring_nf


/-! ### Claim theorems -/

/-- C3: `_calculateProjectHealth` is total on projects with non-negative
integer issue counts (it is a Lean function on `Nat` counts, so totality
is by construction), equals the reference formula
`max(0, 100 - min(30, o*5) - min(20, b*3) - min(25, h*2))`, always lies
in `[0, 100]`, and is 100 when all three counts are zero. -/
theorem calculateProjectHealth_spec (p : Project) :
    calculateProjectHealth p =
      healthScoreRef p.overdueIssues p.blockedIssues p.highPriorityIssues ∧
    0 ≤ calculateProjectHealth p ∧
    calculateProjectHealth p ≤ 100 ∧
    (p.overdueIssues = 0 → p.blockedIssues = 0 → p.highPriorityIssues = 0 →
      calculateProjectHealth p = 100) := by
  simp only [calculateProjectHealth, healthScoreRef]
  split_ifs <;> refine ⟨by omega, by omega, by omega, ?_⟩ <;> omega

/-- Witness for C3 at a project with all counts zero. -/
theorem calculateProjectHealth_spec_witness :
    calculateProjectHealth sampleSalesProject = 100 := by
  have h := calculateProjectHealth_spec sampleSalesProject
  exact h.2.2.2 rfl rfl rfl

/-- C9: the three deductions are capped at 30, 20 and 25, so the score
never drops below 25; in particular the final `Math.max(0, score)`
clamp never changes the result. -/
theorem calculateProjectHealth_min25 (p : Project) :
    25 ≤ calculateProjectHealth p ∧
    calculateProjectHealth p = calculateProjectHealthNoClamp p := by
  simp only [calculateProjectHealth, calculateProjectHealthNoClamp]
  split_ifs <;> constructor <;> omega

/-- C4: `_isProjectCritical` is exactly the disjunction of the three
triggers, and the concrete project with 7 overdue issues and the other
counts zero scores 70 yet is critical. -/
theorem isProjectCritical_iff (p : Project) :
    (isProjectCritical p = true ↔
      (calculateProjectHealth p < 50 ∨ 5 < p.overdueIssues ∨
        3 < p.blockedIssues)) ∧
    (p.overdueIssues = 7 → p.blockedIssues = 0 → p.highPriorityIssues = 0 →
      calculateProjectHealth p = 70 ∧ isProjectCritical p = true) := by
  constructor
  · simp [isProjectCritical, or_assoc]
  · intro h1 h2 h3
    have hs : calculateProjectHealth p = 70 := by
      simp only [calculateProjectHealth, h1, h2, h3]
      norm_num
    exact ⟨hs, by simp [isProjectCritical, h1]⟩

/-- Witness for C4 at the 7-overdue project. -/
theorem isProjectCritical_iff_witness :
    calculateProjectHealth sampleOverdueProject = 70 ∧
    isProjectCritical sampleOverdueProject = true := by
  have h := isProjectCritical_iff sampleOverdueProject
  exact h.2 rfl rfl rfl

/-- C8: `_getCriticalReason` reports the first matching trigger in the
fixed order overdue, blocked, low health, generic fallback; the overdue
message wins regardless of the other triggers. -/
theorem getCriticalReason_order (p : Project) :
    (5 < p.overdueIssues →
      getCriticalReason p = toString p.overdueIssues ++ " overdue issues") ∧
    (p.overdueIssues ≤ 5 → 3 < p.blockedIssues →
      getCriticalReason p = toString p.blockedIssues ++ " blocked issues") ∧
    (p.overdueIssues ≤ 5 → p.blockedIssues ≤ 3 →
      calculateProjectHealth p < 50 →
      getCriticalReason p = "Overall health below 50%") ∧
    (p.overdueIssues ≤ 5 → p.blockedIssues ≤ 3 →
      50 ≤ calculateProjectHealth p →
      getCriticalReason p = "Multiple risk factors") := by
  simp only [getCriticalReason]
  refine ⟨fun h => ?_, fun h1 h2 => ?_, fun h1 h2 h3 => ?_,
    fun h1 h2 h3 => ?_⟩ <;>
    split_ifs <;> first | rfl | omega

/-- Witness for C8 at a project firing all three triggers: the overdue
message is reported. -/
theorem getCriticalReason_order_witness :
    getCriticalReason sampleMultiRiskProject = "7 overdue issues" := by
  have h := (getCriticalReason_order sampleMultiRiskProject).1 (by decide)
  rw [h]
  decide

/-- C7: the summary healthScore is the rounded arithmetic mean of the
per-project scores, 0 on an empty project list (no division happens
there), and the empty portfolio has no critical alerts and zero
on-track and at-risk counts. -/
theorem getPortfolioSummary_spec (projects : List Project) :
    (getPortfolioSummary projects).healthScore =
      (if projects.length = 0 then 0
       else round (((projects.map calculateProjectHealth).sum : ℚ) /
         (projects.length : ℚ))) ∧
    (getPortfolioSummary ([] : List Project)).healthScore = 0 ∧
    getCriticalAlerts ([] : List Project) = [] ∧
    (getPortfolioSummary ([] : List Project)).criticalAlerts = 0 ∧
    (getPortfolioSummary ([] : List Project)).onTrackProjects = 0 ∧
    (getPortfolioSummary ([] : List Project)).atRiskProjects = 0 := by
  refine ⟨?_, rfl, rfl, rfl, rfl, rfl⟩
  by_cases h : projects.length = 0
  · simp [getPortfolioSummary, calculateHealthScore, h]
  · simp only [getPortfolioSummary, calculateHealthScore, h, if_false]
    rw [jsRound_eq_round _ _ (Nat.pos_of_ne_zero h), totalHealthScore_eq_sum]

/-- C5: `authorizePortfolioAccess` returns false whenever no permission
has type PORTFOLIO_VIEW, or no PORTFOLIO_VIEW permission has the
requested business unit or the sentinel "All_Units" in its scope; it
never throws, being a total function on every input. -/
theorem authorizePortfolioAccess_denied (uid : Option String) (bu : String)
    (tok : Option String) (perms : List Permission)
    (h : (∀ perm ∈ perms, perm.type ≠ "PORTFOLIO_VIEW") ∨
         (∀ perm ∈ perms, perm.type = "PORTFOLIO_VIEW" →
           bu ∉ perm.scope ∧ "All_Units" ∉ perm.scope)) :
    authorizePortfolioAccess uid bu tok (.ok perms) = false := by
  simp only [authorizePortfolioAccess]
  split_ifs with h1 h2 h3 h4
  · rfl
  · rfl
  · rfl
  · rfl
  · exfalso
    rw [Bool.not_eq_true', Bool.not_eq_false] at h3
    rw [Bool.not_eq_true', Bool.not_eq_false] at h4
    rcases h with h | h
    · obtain ⟨perm, hm, ht⟩ := List.any_eq_true.mp h3
      exact h perm hm (by simpa using ht)
    · obtain ⟨perm, hm, ht⟩ := List.any_eq_true.mp h4
      rw [List.mem_filter] at hm
      have htype : perm.type = "PORTFOLIO_VIEW" := by simpa using hm.2
      obtain ⟨hbu, hAll⟩ := h perm hm.1 htype
      have ht2 : bu ∈ perm.scope ∨ "All_Units" ∈ perm.scope := by
        simpa using ht
      rcases ht2 with hc | hc
      · exact hbu hc
      · exact hAll hc

/-- Witness for C5: a valid executive with a valid token, but holding
only a Sales scope, is denied Engineering access. -/
theorem authorizePortfolioAccess_denied_witness :
    authorizePortfolioAccess (some "exec-alice") "Engineering"
      (some "valid-token") (.ok sampleViewPerms) = false :=
  authorizePortfolioAccess_denied (some "exec-alice") "Engineering"
    (some "valid-token") sampleViewPerms (Or.inr (by decide))

/-- C10: with a falsy token or a caller id that is not a string with
the "exec-" marker, `authorizePortfolioAccess` returns false for every
possible permission-fetch outcome: the two refusal checks precede, and
are independent of, the permission list. -/
theorem authorizePortfolioAccess_precheck (uid : Option String) (bu : String)
    (tok : Option String)
    (h : jsTruthy tok = false ∨ isValidExecutiveUserId uid = false) :
    ∀ permResult, authorizePortfolioAccess uid bu tok permResult = false := by
  intro permResult
  rcases h with h | h <;> simp [authorizePortfolioAccess, h]

/-- Witness for C10: a non-executive id is refused even with a full
All_Units grant and a valid token. -/
theorem authorizePortfolioAccess_precheck_witness :
    authorizePortfolioAccess (some "alice") "Sales" (some "valid-token")
      (.ok [{ type := "PORTFOLIO_VIEW", scope := ["All_Units"] }]) = false :=
  authorizePortfolioAccess_precheck (some "alice") "Sales"
    (some "valid-token") (Or.inr (by decide)) _

/-- C1: every project in the filtered output has its business unit in
the union of the PORTFOLIO_VIEW scopes unless some PORTFOLIO_VIEW scope
holds "All_Units" (then the business-unit step keeps every input
project), and with no PORTFOLIO_VIEW permission at all the output
project list is empty. -/
theorem filterPortfolioData_businessUnitScoping (pd : PortfolioData)
    (perms : List Permission) :
    ((¬ ∃ perm ∈ perms, perm.type = "PORTFOLIO_VIEW" ∧
        "All_Units" ∈ perm.scope) →
      ∀ q ∈ (filterPortfolioDataByPermissions (.ok perms) pd).1.projects,
        q.businessUnit ∈ authorizedUnits perms) ∧
    ((∃ perm ∈ perms, perm.type = "PORTFOLIO_VIEW" ∧
        "All_Units" ∈ perm.scope) →
      filterProjectsByBusinessUnit pd.projects perms = pd.projects) ∧
    ((∀ perm ∈ perms, perm.type ≠ "PORTFOLIO_VIEW") →
      (filterPortfolioDataByPermissions (.ok perms) pd).1.projects = []) := by
  refine ⟨?_, ?_, ?_⟩
  · intro hAll q hq
    rw [filterPortfolioData_projects, filterSensitiveProjectData] at hq
    obtain ⟨r, hr, rfl⟩ := List.mem_map.mp hq
    rw [mem_filterProjectsByBusinessUnit] at hr
    have hA : "All_Units" ∉ authorizedUnits perms := by
      rw [mem_authorizedUnits]; exact hAll
    have hbu : r.businessUnit ∈ authorizedUnits perms := by
      rcases hr.2 with h | h
      · exact h
      · exact absurd h hA
    rw [(redactProject_preserves _ _ r).2.2.1]
    exact hbu
  · rintro ⟨perm, hm, ht, hs⟩
    rw [filterProjectsByBusinessUnit]
    have hmem : perm ∈ perms.filter (fun p => p.type == "PORTFOLIO_VIEW") :=
      List.mem_filter.mpr ⟨hm, by simp [ht]⟩
    have hlen : (perms.filter
        (fun p => p.type == "PORTFOLIO_VIEW")).length ≠ 0 := by
      intro h0
      rw [List.length_eq_zero] at h0
      simp [h0] at hmem
    rw [if_neg hlen]
    have hA : "All_Units" ∈ authorizedUnits perms :=
      (mem_authorizedUnits perms _).mpr ⟨perm, hm, ht, hs⟩
    refine List.filter_eq_self.mpr ?_
    intro a _
    simp [hA]
  · intro hNone
    rw [filterPortfolioData_projects]
    have h0 : perms.filter (fun p => p.type == "PORTFOLIO_VIEW") = [] := by
      rw [List.filter_eq_nil_iff]
      intro perm hm
      simp [hNone perm hm]
    rw [filterProjectsByBusinessUnit]
    rw [h0]
    simp [filterSensitiveProjectData]

/-- Witness for C1: with only a Sales scope, the surviving Sales project
has its business unit among the authorized units. -/
theorem filterPortfolioData_businessUnitScoping_witness :
    (redactProject false false sampleSalesProject).businessUnit ∈
      authorizedUnits sampleViewPerms := by
  have h := (filterPortfolioData_businessUnitScoping samplePortfolioData
    sampleViewPerms).1 (by decide)
  exact h _ (by decide)

/-- C2: each survivor of the business-unit step is redacted into a
project in the final output whose budget and revenue are absent without
a FINANCIAL_DATA permission, whose detailedMetrics is absent without a
DETAILED_METRICS permission, and whose key, name, business unit and
three issue counts are carried over unchanged. -/
theorem filterPortfolioData_redaction (pd : PortfolioData)
    (perms : List Permission) (p : Project)
    (hp : p ∈ filterProjectsByBusinessUnit pd.projects perms) :
    redactProject (hasPermissionType perms "FINANCIAL_DATA")
        (hasPermissionType perms "DETAILED_METRICS") p ∈
      (filterPortfolioDataByPermissions (.ok perms) pd).1.projects ∧
    (hasPermissionType perms "FINANCIAL_DATA" = false →
      (redactProject (hasPermissionType perms "FINANCIAL_DATA")
        (hasPermissionType perms "DETAILED_METRICS") p).budget = none ∧
      (redactProject (hasPermissionType perms "FINANCIAL_DATA")
        (hasPermissionType perms "DETAILED_METRICS") p).revenue = none) ∧
    (hasPermissionType perms "DETAILED_METRICS" = false →
      (redactProject (hasPermissionType perms "FINANCIAL_DATA")
        (hasPermissionType perms "DETAILED_METRICS") p).detailedMetrics =
        none) ∧
    (redactProject (hasPermissionType perms "FINANCIAL_DATA")
        (hasPermissionType perms "DETAILED_METRICS") p).key = p.key ∧
    (redactProject (hasPermissionType perms "FINANCIAL_DATA")
        (hasPermissionType perms "DETAILED_METRICS") p).name = p.name ∧
    (redactProject (hasPermissionType perms "FINANCIAL_DATA")
        (hasPermissionType perms "DETAILED_METRICS") p).businessUnit =
      p.businessUnit ∧
    (redactProject (hasPermissionType perms "FINANCIAL_DATA")
        (hasPermissionType perms "DETAILED_METRICS") p).overdueIssues =
      p.overdueIssues ∧
    (redactProject (hasPermissionType perms "FINANCIAL_DATA")
        (hasPermissionType perms "DETAILED_METRICS") p).blockedIssues =
      p.blockedIssues ∧
    (redactProject (hasPermissionType perms "FINANCIAL_DATA")
        (hasPermissionType perms "DETAILED_METRICS") p).highPriorityIssues =
      p.highPriorityIssues := by
  have hpres := redactProject_preserves
    (hasPermissionType perms "FINANCIAL_DATA")
    (hasPermissionType perms "DETAILED_METRICS") p
  refine ⟨?_, ?_, ?_, hpres.1, hpres.2.1, hpres.2.2.1, hpres.2.2.2.1,
    hpres.2.2.2.2.1, hpres.2.2.2.2.2⟩
  · rw [filterPortfolioData_projects, filterSensitiveProjectData]
    exact List.mem_map_of_mem _ hp
  · intro hfin
    simp only [redactProject, hfin]
    split_ifs <;> simp_all
  · intro hdet
    simp only [redactProject, hdet]
    split_ifs <;> simp_all

/-- Witness for C2: under a Sales-only PORTFOLIO_VIEW grant the Sales
project loses its budget and detailed metrics. -/
theorem filterPortfolioData_redaction_witness :
    (redactProject (hasPermissionType sampleViewPerms "FINANCIAL_DATA")
      (hasPermissionType sampleViewPerms "DETAILED_METRICS")
      sampleSalesProject).budget = none ∧
    (redactProject (hasPermissionType sampleViewPerms "FINANCIAL_DATA")
      (hasPermissionType sampleViewPerms "DETAILED_METRICS")
      sampleSalesProject).detailedMetrics = none := by
  have h := filterPortfolioData_redaction samplePortfolioData sampleViewPerms
    sampleSalesProject (by decide)
  exact ⟨(h.2.1 rfl).1, h.2.2.1 rfl⟩

/-- C6: the caller object comes back from the call unchanged (the
method deep-clones before touching anything, which the state-passing
embedding records in its second component), and a permission-fetch
error makes the method return the bare empty-projects object, failing
closed instead of propagating the exception. -/
theorem filterPortfolioData_failClosed_noMutation
    (permResult : Except String (List Permission)) (pd : PortfolioData) :
    (filterPortfolioDataByPermissions permResult pd).2 = pd ∧
    (∀ e, permResult = .error e →
      (filterPortfolioDataByPermissions permResult pd).1 =
        { projects := [] }) := by
  constructor
  · cases permResult <;> rfl
  · rintro e rfl
    rfl

/-- Witness for C6: a throwing permission fetch yields the empty
fallback. -/
theorem filterPortfolioData_failClosed_noMutation_witness :
    (filterPortfolioDataByPermissions (.error "adapter failure")
      samplePortfolioData).1 = { projects := [] } := by
  have h := filterPortfolioData_failClosed_noMutation
    (.error "adapter failure") samplePortfolioData
  exact h.2 "adapter failure" rfl

end ExecFlashNews
